import Mathlib

/-!
Verification of the WhatsApp gateway client and summary scheduler of the
custom-beer-bot repository.  TypeScript strings are modelled as lists of
characters, timestamps as natural numbers, and the asynchronous request
queue as a sequential drain over a list of scripted requests.
-/

/-- TypeScript strings are modelled as lists of characters. -/
abbrev Chars := List Char

/-- The group-chat canonical suffix `"@g.us"`. -/
def gSuffix : Chars := ['@', 'g', '.', 'u', 's']

/-- The direct-chat canonical suffix `"@c.us"`. -/
def cSuffix : Chars := ['@', 'c', '.', 'u', 's']

/-- `WhatsAppAPI.formatChatId` from `src/src/lib/whatsapp.ts` (lines 385-414).
Throws (`none`) on an empty chat id; returns ids already carrying a canonical
suffix unchanged; otherwise appends `"@g.us"` when the id contains `'-'` or is
longer than 15 characters (`const isGroup = chatId.includes('-') ||
chatId.length > 15`), else appends `"@c.us"`. -/
def formatChatId (chatId : Chars) : Option Chars :=
  if chatId = [] then
    none
  else if gSuffix <:+ chatId ∨ cSuffix <:+ chatId then
    some chatId
  else
    some (chatId ++ (if ('-' ∈ chatId) ∨ 15 < chatId.length then gSuffix else cSuffix))

/-- `WhatsAppAPI.formatChatId` from the unnamed client variant
(`src/unnamed/part_011`, lines 460-482).  Ids already suffixed, or containing
`"@c.us"` as a substring, are returned unchanged; ids containing `'-'` get the
group suffix; all other (personal-chat) ids are returned without any suffix. -/
def formatChatId011 (chatId : Chars) : Option Chars :=
  if chatId = [] then
    none
  else if gSuffix <:+ chatId ∨ cSuffix <:+ chatId then
    some chatId
  else if cSuffix <:+: chatId then
    some chatId
  else if '-' ∈ chatId then
    some (chatId ++ gSuffix)
  else
    some chatId

lemma formatChatId_some_ne_nil {x y : Chars} (h : formatChatId x = some y) : y ≠ [] := by
  unfold formatChatId at h
  split at h
  · exact absurd h (by simp)
  · split at h
    · injection h with h
      subst h
      simp_all
    · injection h with h
      subst h
      simp [List.append_eq_nil, gSuffix, cSuffix]
      split <;> simp

lemma formatChatId_some_suffixed {x y : Chars} (hx : x ≠ [])
    (h : formatChatId x = some y) : gSuffix <:+ y ∨ cSuffix <:+ y := by
  unfold formatChatId at h
  rw [if_neg hx] at h
  split at h
  · injection h with h
    subst h
    assumption
  · injection h with h
    subst h
    split
    · exact Or.inl (List.suffix_append x gSuffix)
    · exact Or.inr (List.suffix_append x cSuffix)

lemma formatChatId_of_suffixed {x : Chars} (hx : x ≠ [])
    (h : gSuffix <:+ x ∨ cSuffix <:+ x) : formatChatId x = some x := by
  unfold formatChatId
  rw [if_neg hx, if_pos h]

lemma formatChatId011_eq (x : Chars) (hx : x ≠ []) :
    formatChatId011 x =
      if gSuffix <:+ x ∨ cSuffix <:+ x then some x
      else if cSuffix <:+: x then some x
      else if '-' ∈ x then some (x ++ gSuffix)
      else some x := by
  unfold formatChatId011
  rw [if_neg hx]

/-- Claim C4: for every non-empty identifier `x`, `formatChatId` is
idempotent, for the `src/src/lib/whatsapp.ts` version and for the
`src/unnamed/part_011` variant alike. -/
theorem formatChatId_idem (x : Chars) (hx : x ≠ []) :
    (formatChatId x).bind formatChatId = formatChatId x ∧
    (formatChatId011 x).bind formatChatId011 = formatChatId011 x := by
  constructor
  · cases h : formatChatId x with
    | none => simp
    | some y =>
      have hy : y ≠ [] := formatChatId_some_ne_nil h
      have hs : gSuffix <:+ y ∨ cSuffix <:+ y := formatChatId_some_suffixed hx h
      simp [Option.bind, formatChatId_of_suffixed hy hs]
  · rw [formatChatId011_eq x hx]
    split
    · next h1 =>
      show formatChatId011 x = some x
      rw [formatChatId011_eq x hx, if_pos h1]
    · split
      · next h1 h2 =>
        show formatChatId011 x = some x
        rw [formatChatId011_eq x hx, if_neg h1, if_pos h2]
      · split
        · show formatChatId011 (x ++ gSuffix) = some (x ++ gSuffix)
          have hgl : gSuffix <:+ x ++ gSuffix := List.suffix_append x gSuffix
          rw [formatChatId011_eq (x ++ gSuffix) (by simp [gSuffix]), if_pos (Or.inl hgl)]
        · next h1 h2 h3 =>
          show formatChatId011 x = some x
          rw [formatChatId011_eq x hx, if_neg h1, if_neg h2, if_neg h3]

/-- Witness for C4 at the concrete identifier `"1"`. -/
theorem formatChatId_idem_witness :
    (formatChatId ['1']).bind formatChatId = formatChatId ['1'] ∧
    (formatChatId011 ['1']).bind formatChatId011 = formatChatId011 ['1'] :=
  formatChatId_idem ['1'] (by decide)

/-- A 16-character identifier without separator character. -/
def long16 : Chars := List.replicate 16 '1'

/-- Counterexample to claim C5: the identifier `"1111111111111111"` (16 digits)
carries no canonical suffix and contains no multi-party separator, so by the
claimed rule (3) the direct-chat suffix should be appended; the code instead
appends the group-chat suffix because the id is longer than 15 characters. -/
theorem formatChatId_length_counterexample :
    ¬ (gSuffix <:+ long16 ∨ cSuffix <:+ long16) ∧ '-' ∉ long16 ∧
    formatChatId long16 = some (long16 ++ gSuffix) ∧
    formatChatId long16 ≠ some (long16 ++ cSuffix) := by
  decide

/-- Amended claim C5 for `src/src/lib/whatsapp.ts`: rules in order are
(1) an id already ending in a canonical suffix is returned unchanged;
(2) an id containing `'-'` or longer than 15 characters gets the group-chat
suffix; (3) otherwise the direct-chat suffix is appended; the result always
ends in one of the two canonical suffixes. -/
theorem formatChatId_rules (x : Chars) (hx : x ≠ []) :
    (gSuffix <:+ x ∨ cSuffix <:+ x → formatChatId x = some x) ∧
    (¬ (gSuffix <:+ x ∨ cSuffix <:+ x) → ('-' ∈ x ∨ 15 < x.length) →
      formatChatId x = some (x ++ gSuffix)) ∧
    (¬ (gSuffix <:+ x ∨ cSuffix <:+ x) → ¬ ('-' ∈ x ∨ 15 < x.length) →
      formatChatId x = some (x ++ cSuffix)) ∧
    (∀ y, formatChatId x = some y → gSuffix <:+ y ∨ cSuffix <:+ y) := by
  refine ⟨fun h => formatChatId_of_suffixed hx h, fun h1 h2 => ?_, fun h1 h2 => ?_,
    fun y hy => formatChatId_some_suffixed hx hy⟩
  · unfold formatChatId
    rw [if_neg hx, if_neg h1, if_pos h2]
  · unfold formatChatId
    rw [if_neg hx, if_neg h1, if_neg h2]

/-- Witness for the amended C5 at the group id `"12-34"` and the personal id
`"5551234"`. -/
theorem formatChatId_rules_witness :
    formatChatId ['1', '2', '-', '3', '4'] = some (['1', '2', '-', '3', '4'] ++ gSuffix) ∧
    formatChatId ['5', '1', '2'] = some (['5', '1', '2'] ++ cSuffix) :=
  ⟨(formatChatId_rules ['1', '2', '-', '3', '4'] (by decide)).2.1 (by decide) (by decide),
   (formatChatId_rules ['5', '1', '2'] (by decide)).2.2.1 (by decide) (by decide)⟩

/-- Outcome of one transport attempt (one axios call in
`WhatsAppAPI.makeRequestToApi`, `src/unnamed/part_011`): either the response
arrives, or the call fails carrying the optional HTTP status that axios
attaches to the error (`error.response?.status`). -/
inductive Outcome where
  | ok
  | fail (status : Option Nat)
deriving DecidableEq

/-- `MAX_RETRIES` from `src/unnamed/part_011`. -/
def MAX_RETRIES : Nat := 3

/-- `BASE_BACKOFF_DELAY` from `src/unnamed/part_011` (milliseconds). -/
def BASE_BACKOFF_DELAY : Nat := 6000

/-- The exponential backoff delay `BASE_BACKOFF_DELAY * Math.pow(2, retryCount)`
computed in `WhatsAppAPI.makeRequestToApi` on a 429 response. -/
def backoffDelay (retryCount : Nat) : Nat := BASE_BACKOFF_DELAY * 2 ^ retryCount

/-- Observable events of the drain loop: a transport call (request id and
attempt number), a sleep (`this.delay(ms)`), and the resolution or rejection
of a queued request's completion handle. -/
inductive Ev where
  | call (rid attempt : Nat)
  | sleep (rid ms : Nat)
  | resolved (rid : Nat)
  | rejected (rid : Nat) (status : Option Nat)
deriving DecidableEq

/-- The request id an event belongs to. -/
def Ev.rid : Ev → Nat
  | .call r _ => r
  | .sleep r _ => r
  | .resolved r => r
  | .rejected r _ => r

/-- Result of `makeRequestToApi` for one queued request: the promise is
fulfilled, or rejected with the error's optional HTTP status. -/
inductive ReqResult where
  | resolved
  | rejected (status : Option Nat)
deriving DecidableEq

/-- `WhatsAppAPI.makeRequestToApi` (`src/unnamed/part_011`, lines 284-317) as a
trace semantics.  `script` gives the transport outcome of each attempt number.
A successful attempt is followed by `await this.delay(1000)`; a failure with
HTTP status 429 and `retryCount < MAX_RETRIES` sleeps for the exponential
backoff delay and retries the same request in place; any other failure
rethrows. -/
def makeRequestToApi (script : Nat → Outcome) (rid : Nat) (retryCount : Nat) :
    List Ev × ReqResult :=
  match script retryCount with
  | .ok => ([.call rid retryCount, .sleep rid 1000], .resolved)
  | .fail status =>
    if h : status = some 429 ∧ retryCount < MAX_RETRIES then
      let rest := makeRequestToApi script rid (retryCount + 1)
      (.call rid retryCount :: .sleep rid (backoffDelay retryCount) :: rest.1, rest.2)
    else
      ([.call rid retryCount], .rejected status)
termination_by MAX_RETRIES - retryCount
decreasing_by
  have := h.2
  omega

/-- One entry of the internal FIFO request queue, with the transport outcomes
scripted per attempt number. -/
structure QueuedRequest where
  rid : Nat
  script : Nat → Outcome

/-- `WhatsAppAPI.processQueue` (`src/unnamed/part_011`, lines 264-282): the
drain loop shifts the head request, awaits `makeRequestToApi` for it in full
(including in-place retries), resolves or rejects its completion handle, and
only then moves to the next queued request. -/
def processQueue : List QueuedRequest → List Ev
  | [] => []
  | req :: rest =>
    let r := makeRequestToApi req.script req.rid 0
    let resEv := match r.2 with
      | .resolved => Ev.resolved req.rid
      | .rejected st => Ev.rejected req.rid st
    r.1 ++ resEv :: processQueue rest

lemma mem_makeRequestToApi_rid (script : Nat → Outcome) (rid : Nat) :
    ∀ rc, ∀ e ∈ (makeRequestToApi script rid rc).1, Ev.rid e = rid := by
  have key : ∀ n rc, MAX_RETRIES - rc = n →
      ∀ e ∈ (makeRequestToApi script rid rc).1, Ev.rid e = rid := by
    intro n
    induction n with
    | zero =>
      intro rc hn e he
      unfold makeRequestToApi at he
      split at he
      · simp only [List.mem_cons, List.mem_singleton] at he
        rcases he with h | h | h
        · subst h; rfl
        · subst h; rfl
        · exact absurd h (by simp)
      · split at he
        · next hcond =>
          exact absurd hcond.2 (by omega)
        · simp only [List.mem_singleton] at he
          subst he; rfl
    | succ n ih =>
      intro rc hn e he
      unfold makeRequestToApi at he
      split at he
      · simp only [List.mem_cons, List.mem_singleton] at he
        rcases he with h | h | h
        · subst h; rfl
        · subst h; rfl
        · exact absurd h (by simp)
      · split at he
        · simp only [List.mem_cons] at he
          rcases he with h | h | h
          · subst h; rfl
          · subst h; rfl
          · exact ih (rc + 1) (by omega) e h
        · simp only [List.mem_singleton] at he
          subst he; rfl
  intro rc
  exact key (MAX_RETRIES - rc) rc rfl

lemma mem_processQueue_rid (q : List QueuedRequest) (e : Ev) (he : e ∈ processQueue q) :
    ∃ r ∈ q, Ev.rid e = r.rid := by
  induction q with
  | nil => simp [processQueue] at he
  | cons req rest ih =>
    unfold processQueue at he
    simp only [List.mem_append, List.mem_cons] at he
    rcases he with h | h | h
    · exact ⟨req, List.mem_cons_self req rest,
        mem_makeRequestToApi_rid req.script req.rid 0 e h⟩
    · refine ⟨req, List.mem_cons_self req rest, ?_⟩
      subst h
      cases hr : (makeRequestToApi req.script req.rid 0).2 <;> simp [hr, Ev.rid]
    · obtain ⟨r, hr, hrid⟩ := ih h
      exact ⟨r, List.mem_cons_of_mem req hr, hrid⟩

lemma processQueue_append (q1 q2 : List QueuedRequest) :
    processQueue (q1 ++ q2) = processQueue q1 ++ processQueue q2 := by
  induction q1 with
  | nil => simp [processQueue]
  | cons req rest ih =>
    simp only [List.cons_append, processQueue, List.append_eq, ih, List.append_assoc]

/-- Claim C1: the drain loop services queued requests in FIFO order.  If
request `ri` sits at queue position `i` and request `rj` at a later position
`j`, then in the event trace of `processQueue` every event of `ri` — every
transport call, every in-place retry, and its final resolution or rejection —
occurs strictly before every event of `rj`.  In particular no later-enqueued
request's transport call is made while an earlier throttled request is still
being retried. -/
theorem processQueue_fifo (q : List QueuedRequest)
    (hnd : (q.map QueuedRequest.rid).Nodup)
    (i j : Nat) (ri rj : QueuedRequest)
    (hi : q[i]? = some ri) (hj : q[j]? = some rj) (hij : i < j)
    (a b : Nat) (ea eb : Ev)
    (hea : (processQueue q)[a]? = some ea) (heb : (processQueue q)[b]? = some eb)
    (hra : Ev.rid ea = ri.rid) (hrb : Ev.rid eb = rj.rid) :
    a < b := by
  have hsplit : processQueue q =
      processQueue (q.take (i + 1)) ++ processQueue (q.drop (i + 1)) := by
    rw [← processQueue_append, List.take_append_drop]
  have hitake : ri.rid ∈ (q.take (i + 1)).map QueuedRequest.rid := by
    have h : (q.take (i + 1))[i]? = some ri := by
      rw [List.getElem?_take, if_pos (by omega), hi]
    exact List.mem_map_of_mem _ (List.getElem?_mem h)
  have hjdrop : rj.rid ∈ (q.drop (i + 1)).map QueuedRequest.rid := by
    have h : (q.drop (i + 1))[j - (i + 1)]? = some rj := by
      rw [List.getElem?_drop]
      have he : i + 1 + (j - (i + 1)) = j := by omega
      rw [he, hj]
    exact List.mem_map_of_mem _ (List.getElem?_mem h)
  have hdisj : List.Disjoint ((q.take (i + 1)).map QueuedRequest.rid)
      ((q.drop (i + 1)).map QueuedRequest.rid) := by
    have h2 : ((q.take (i + 1)).map QueuedRequest.rid ++
        (q.drop (i + 1)).map QueuedRequest.rid).Nodup := by
      rw [← List.map_append, List.take_append_drop]
      exact hnd
    exact (List.nodup_append.mp h2).2.2
  have ha : a < (processQueue (q.take (i + 1))).length := by
    by_contra hA
    push_neg at hA
    rw [hsplit, List.getElem?_append_right hA] at hea
    obtain ⟨r, hr, hrid⟩ := mem_processQueue_rid _ _ (List.getElem?_mem hea)
    have hmem : ri.rid ∈ (q.drop (i + 1)).map QueuedRequest.rid := by
      rw [← hra, hrid]
      exact List.mem_map_of_mem _ hr
    exact hdisj hitake hmem
  have hb : (processQueue (q.take (i + 1))).length ≤ b := by
    by_contra hB
    push_neg at hB
    rw [hsplit, List.getElem?_append_left hB] at heb
    obtain ⟨r, hr, hrid⟩ := mem_processQueue_rid _ _ (List.getElem?_mem heb)
    have hmem : rj.rid ∈ (q.take (i + 1)).map QueuedRequest.rid := by
      rw [← hrb, hrid]
      exact List.mem_map_of_mem _ hr
    exact hdisj hmem hjdrop
  omega

/-- A transport that answers HTTP 429 (throttling) on every attempt. -/
def alwaysThrottled : Nat → Outcome := fun _ => Outcome.fail (some 429)

/-- A transport that succeeds on every attempt. -/
def alwaysOk : Nat → Outcome := fun _ => Outcome.ok

/-- Claim C3: with `MAX_RETRIES = 3`, a request whose every attempt is
throttled is tried exactly 4 times with backoff sleeps of 6, 12 and 24 seconds
between attempts; the 4th throttled attempt is followed by no further backoff
sleep and the request is rejected with the 429 rate-limit error, after which
the drain loop proceeds to the remaining queued items. -/
theorem makeRequestToApi_exhausted (rid : Nat) (rest : List QueuedRequest) :
    makeRequestToApi alwaysThrottled rid 0 =
      ([.call rid 0, .sleep rid 6000, .call rid 1, .sleep rid 12000, .call rid 2,
        .sleep rid 24000, .call rid 3], .rejected (some 429)) ∧
    processQueue (⟨rid, alwaysThrottled⟩ :: rest) =
      [.call rid 0, .sleep rid 6000, .call rid 1, .sleep rid 12000, .call rid 2,
       .sleep rid 24000, .call rid 3, .rejected rid (some 429)] ++ processQueue rest := by
  have h1 : makeRequestToApi alwaysThrottled rid 0 =
      ([.call rid 0, .sleep rid 6000, .call rid 1, .sleep rid 12000, .call rid 2,
        .sleep rid 24000, .call rid 3], .rejected (some 429)) := by
    rw [makeRequestToApi, makeRequestToApi, makeRequestToApi, makeRequestToApi]
    norm_num [alwaysThrottled, backoffDelay, BASE_BACKOFF_DELAY, MAX_RETRIES]
  exact ⟨h1, by simp [processQueue, h1]⟩

/-- A two-request demonstration queue: request 0 is throttled on every attempt,
request 1 succeeds. -/
def demoQueue : List QueuedRequest := [⟨0, alwaysThrottled⟩, ⟨1, alwaysOk⟩]

lemma demoQueue_trace : processQueue demoQueue =
    [Ev.call 0 0, Ev.sleep 0 6000, Ev.call 0 1, Ev.sleep 0 12000, Ev.call 0 2,
     Ev.sleep 0 24000, Ev.call 0 3, Ev.rejected 0 (some 429),
     Ev.call 1 0, Ev.sleep 1 1000, Ev.resolved 1] := by
  have h1 : makeRequestToApi alwaysThrottled 0 0 =
      ([.call 0 0, .sleep 0 6000, .call 0 1, .sleep 0 12000, .call 0 2,
        .sleep 0 24000, .call 0 3], .rejected (some 429)) := by
    rw [makeRequestToApi, makeRequestToApi, makeRequestToApi, makeRequestToApi]
    norm_num [alwaysThrottled, backoffDelay, BASE_BACKOFF_DELAY, MAX_RETRIES]
  have h2 : makeRequestToApi alwaysOk 1 0 = ([.call 1 0, .sleep 1 1000], .resolved) := by
    rw [makeRequestToApi]
    norm_num [alwaysOk]
  simp [processQueue, demoQueue, h1, h2]

/-- Witness for C1 on `demoQueue`: the first transport call of the
later-enqueued request 1 (trace position 8) comes strictly after the retried
and finally rejected events of request 0 (for example its first call at
position 0). -/
theorem processQueue_fifo_witness :
    (processQueue demoQueue)[0]? = some (Ev.call 0 0) ∧
    (processQueue demoQueue)[8]? = some (Ev.call 1 0) ∧ 0 < 8 :=
  ⟨by rw [demoQueue_trace]; rfl, by rw [demoQueue_trace]; rfl,
   processQueue_fifo demoQueue (by decide) 0 1 ⟨0, alwaysThrottled⟩ ⟨1, alwaysOk⟩
     rfl rfl (by omega) 0 8 (Ev.call 0 0) (Ev.call 1 0)
     (by rw [demoQueue_trace]; rfl) (by rw [demoQueue_trace]; rfl) rfl rfl⟩

/-- The retry delay `Math.pow(2, task.retryCount) * 5 * 60000` computed by
`SummaryScheduler.runTask` (`src/src/lib/scheduler.ts`, line 90) on a failed
run: an exponential backoff with a 5 minute base. -/
def schedRetryDelay (retryCount : Nat) : Nat := 2 ^ retryCount * 5 * 60000

/-- Counterexample to claim C2: the scheduler's retry delay — one of the two
retry-delay computations the claim covers — already exceeds the claimed
60 second cap at attempt 0, and its base is 5 minutes, not 5-6 seconds. -/
theorem schedRetryDelay_counterexample :
    0 < MAX_RETRIES ∧ schedRetryDelay 0 = 300000 ∧ ¬ schedRetryDelay 0 ≤ 60000 := by
  decide

/-- Amended claim C2: for every attempt count `a < maxRetries = 3` the gateway
client's backoff delay equals `6000 * 2 ^ a` milliseconds, is strictly
increasing in `a`, and stays at or below 60 seconds; the scheduler's retry
delay equals `300000 * 2 ^ a` milliseconds (a 5 minute base) and is strictly
increasing in `a`, but is not bounded by 60 seconds. -/
theorem backoffDelay_spec (a : Nat) (ha : a < MAX_RETRIES) :
    backoffDelay a = 6000 * 2 ^ a ∧ backoffDelay a < backoffDelay (a + 1) ∧
    backoffDelay a ≤ 60000 ∧
    schedRetryDelay a = 300000 * 2 ^ a ∧ schedRetryDelay a < schedRetryDelay (a + 1) := by
  have h3 : a < 3 := ha
  interval_cases a <;> decide

/-- Witness for the amended C2 at attempt count 2. -/
theorem backoffDelay_spec_witness :
    backoffDelay 2 = 6000 * 2 ^ 2 ∧ backoffDelay 2 < backoffDelay 3 ∧
    backoffDelay 2 ≤ 60000 ∧
    schedRetryDelay 2 = 300000 * 2 ^ 2 ∧ schedRetryDelay 2 < schedRetryDelay 3 :=
  backoffDelay_spec 2 (by decide)

/-- A scheduler task record (`ScheduledTask` in `src/src/lib/scheduler.ts`):
next run time in milliseconds, retry count, and the last error message. -/
structure SchedTask where
  nextRunTime : Nat
  retryCount : Nat
  lastError : Option String
deriving DecidableEq

/-- Outcome of one summary delivery attempt inside `runTask`'s `try` block. -/
inductive RunOutcome where
  | success
  | failure (msg : String)
deriving DecidableEq

/-- The task-state update performed by `SummaryScheduler.runTask`
(`src/src/lib/scheduler.ts`, lines 57-117).  On success the task is reset for
tomorrow 20:00 (`tomorrow20`) with `retryCount := 0`; on failure with
`retryCount < 3` the task is rescheduled to `now + schedRetryDelay retryCount`
with the retry count incremented; once retries are exhausted the task is reset
for tomorrow 20:00 with `retryCount := 0` and a "Max retries exceeded" error
recorded. -/
def runTask (task : SchedTask) (outcome : RunOutcome) (now tomorrow20 : Nat) : SchedTask :=
  match outcome with
  | .success => ⟨tomorrow20, 0, none⟩
  | .failure msg =>
    if task.retryCount < 3 then
      ⟨now + schedRetryDelay task.retryCount, task.retryCount + 1, some msg⟩
    else
      ⟨tomorrow20, 0, some ("Max retries exceeded: " ++ msg)⟩

/-- Claim C8: after every evaluation of a task, the retry count is zero exactly
when the run succeeded or the maximum of 3 retries was already exhausted (in
which case the task is advanced to the next regular slot `tomorrow20`); in
every other failure case the retry count is incremented by exactly 1, and a
retry count bounded by 3 stays bounded by 3. -/
theorem runTask_retryCount (task : SchedTask) (o : RunOutcome) (now tomorrow20 : Nat) :
    ((runTask task o now tomorrow20).retryCount = 0 ↔
      o = .success ∨ 3 ≤ task.retryCount) ∧
    (∀ msg, o = .failure msg → task.retryCount < 3 →
      (runTask task o now tomorrow20).retryCount = task.retryCount + 1) ∧
    (task.retryCount ≤ 3 → (runTask task o now tomorrow20).retryCount ≤ 3) ∧
    ((o ≠ .success ∧ 3 ≤ task.retryCount) →
      (runTask task o now tomorrow20).nextRunTime = tomorrow20 ∧
      (runTask task o now tomorrow20).retryCount = 0) := by
  cases o with
  | success => simp [runTask]
  | failure msg =>
    by_cases h : task.retryCount < 3
    · refine ⟨?_, ?_, ?_, ?_⟩
      · simp [runTask, if_pos h]
        omega
      · intro m hm _
        simp [runTask, if_pos h]
      · intro _
        simp [runTask, if_pos h]
        omega
      · intro ⟨_, h3⟩
        omega
    · refine ⟨?_, ?_, ?_, ?_⟩
      · simp [runTask, if_neg h]
        omega
      · intro m hm hlt
        exact absurd hlt h
      · intro _
        simp [runTask, if_neg h]
      · intro _
        simp [runTask, if_neg h]

/-- Witness for C8: a third consecutive failure increments the retry count to
3; a fourth failure resets it to 0 and reschedules for the regular slot. -/
theorem runTask_retryCount_witness :
    (runTask ⟨10, 2, none⟩ (.failure "e") 50 990).retryCount = 2 + 1 ∧
    (runTask ⟨10, 3, none⟩ (.failure "e") 50 990).nextRunTime = 990 ∧
    (runTask ⟨10, 3, none⟩ (.failure "e") 50 990).retryCount = 0 :=
  ⟨(runTask_retryCount ⟨10, 2, none⟩ (.failure "e") 50 990).2.1 "e" rfl (by decide),
   (runTask_retryCount ⟨10, 3, none⟩ (.failure "e") 50 990).2.2.2
     ⟨by decide, by decide⟩⟩

/-- A transport call of the lib client: the Green API endpoint name together
with the `chatId` and `message` fields of its payload (empty for payload-less
GET endpoints). -/
structure ApiCall where
  endpoint : String
  chatId : Chars
  message : Chars
deriving DecidableEq

/-- `WhatsAppAPI.sendMessage` from `src/src/lib/whatsapp.ts` (lines 291-320) as
a trace: the list of transport calls it issues and the validation error, if
any, thrown before reaching the transport.  The chat id is normalized via
`formatChatId`, which throws on an empty id; the message text is passed
through without any validation. -/
def sendMessage (chatId message : Chars) : List ApiCall × Option String :=
  match formatChatId chatId with
  | none => ([], some "Chat ID is required")
  | some formattedChatId => ([⟨"sendMessage", formattedChatId, message⟩], none)

/-- Counterexample to claim C6: calling `sendMessage` with the non-empty
identifier `"1"` and an empty message text issues a transport call and raises
no validation error — the code contains no empty-message check, contrary to
the claimed `EmptyMessage` failure before any network call. -/
theorem sendMessage_empty_text_counterexample :
    (sendMessage ['1'] []).1 ≠ [] ∧ (sendMessage ['1'] []).2 = none := by
  decide

/-- Amended claim C6: `sendMessage` fails with the identifier-validation error
before any transport call exactly when the identifier is the empty string; for
every non-empty identifier — including blank ones — and every message text,
including the empty text, a transport call is issued with the normalized id
and the unvalidated text. -/
theorem sendMessage_validation (chatId message : Chars) :
    (chatId = [] → sendMessage chatId message = ([], some "Chat ID is required")) ∧
    (chatId ≠ [] → ∃ fc, formatChatId chatId = some fc ∧
      sendMessage chatId message = ([⟨"sendMessage", fc, message⟩], none)) := by
  constructor
  · intro h
    subst h
    rfl
  · intro h
    cases hfc : formatChatId chatId with
    | none =>
      unfold formatChatId at hfc
      rw [if_neg h] at hfc
      split at hfc <;> exact absurd hfc (by simp)
    | some fc =>
      exact ⟨fc, rfl, by simp [sendMessage, hfc]⟩

/-- Witness for the amended C6: the empty identifier fails without a transport
call, and the non-empty identifier `"1"` with empty text issues exactly one
transport call. -/
theorem sendMessage_validation_witness :
    sendMessage [] ['h'] = ([], some "Chat ID is required") ∧
    ∃ fc, formatChatId ['1'] = some fc ∧
      sendMessage ['1'] [] = ([⟨"sendMessage", fc, []⟩], none) :=
  ⟨(sendMessage_validation [] ['h']).1 rfl,
   (sendMessage_validation ['1'] []).2 (by decide)⟩

/-- The fixed message envelope built by `WhatsAppAPI.sendGroupSummary`
(`src/src/lib/whatsapp.ts`, lines 333-338): header, separator line, the
summary, and a generation-timestamp footer, joined by blank lines. -/
def summaryEnvelope (summary timestamp : Chars) : Chars :=
  "📊 *Group Summary*".toList ++ "\n\n".toList ++
  "-------------------".toList ++ "\n\n".toList ++
  summary ++ "\n\n".toList ++
  "\n_Generated at: ".toList ++ timestamp ++ "_".toList

/-- `WhatsAppAPI.sendGroupSummary` from `src/src/lib/whatsapp.ts` (lines
322-383) as a trace.  `groups` is the id listing returned by `getGroups()` and
`cacheHit` tells whether that listing came from the cache (in which case
`getGroups` issued no transport calls) or from the network (a state check
followed by `getContacts`).  The catch-block rethrow that only prefixes the
error message with "Failed to send group summary:" is not modelled. -/
def sendGroupSummary (groupId summary : Chars) (groups : List Chars)
    (cacheHit : Bool) (timestamp : Chars) : List ApiCall × Option String :=
  if groupId = [] then
    ([], some "Group configuration must include a valid groupId")
  else if summary = [] then
    ([], some "Summary message cannot be empty")
  else
    match formatChatId groupId with
    | none => ([], some "Chat ID is required")
    | some formattedGroupId =>
      let getGroupsCalls : List ApiCall :=
        if cacheHit then [] else [⟨"getStateInstance", [], []⟩, ⟨"getContacts", [], []⟩]
      if formattedGroupId ∈ groups then
        (getGroupsCalls ++ (sendMessage formattedGroupId (summaryEnvelope summary timestamp)).1,
         (sendMessage formattedGroupId (summaryEnvelope summary timestamp)).2)
      else
        (getGroupsCalls, some "Group not found")

/-- Claim C10: whenever the normalized group id is absent from the current
`getGroups()` listing, `sendGroupSummary` fails with the "Group not found"
error and no `sendMessage` transport call is issued — delivery requires the
group to appear in the (possibly cached) listing. -/
theorem sendGroupSummary_group_not_found (groupId summary : Chars)
    (groups : List Chars) (cacheHit : Bool) (timestamp : Chars) (fgid : Chars)
    (hg : groupId ≠ []) (hs : summary ≠ [])
    (hfc : formatChatId groupId = some fgid) (habs : fgid ∉ groups) :
    (sendGroupSummary groupId summary groups cacheHit timestamp).2 =
      some "Group not found" ∧
    ∀ c ∈ (sendGroupSummary groupId summary groups cacheHit timestamp).1,
      c.endpoint ≠ "sendMessage" := by
  unfold sendGroupSummary
  rw [if_neg hg, if_neg hs, hfc]
  simp only [if_neg habs]
  constructor
  · trivial
  · intro c hc
    cases cacheHit with
    | true => simp at hc
    | false =>
      simp only [if_neg (Bool.false_ne_true), List.mem_cons, List.mem_singleton] at hc
      rcases hc with h | h | h
      · subst h; simp
      · subst h; simp
      · exact absurd h (by simp)

/-- Witness for C10: the well-formed group id `"12-34"` normalizes to
`"12-34@g.us"`, which is absent from the one-element listing
`["99-1@g.us"]`; the call fails with "Group not found" and performs no
`sendMessage` transport call. -/
theorem sendGroupSummary_group_not_found_witness :
    (sendGroupSummary ['1', '2', '-', '3', '4'] ['s'] [['9', '9', '-', '1'] ++ gSuffix]
        false ['t']).2 = some "Group not found" ∧
    ∀ c ∈ (sendGroupSummary ['1', '2', '-', '3', '4'] ['s'] [['9', '9', '-', '1'] ++ gSuffix]
        false ['t']).1, c.endpoint ≠ "sendMessage" :=
  sendGroupSummary_group_not_found ['1', '2', '-', '3', '4'] ['s']
    [['9', '9', '-', '1'] ++ gSuffix] false ['t'] (['1', '2', '-', '3', '4'] ++ gSuffix)
    (by decide) (by decide) (by decide) (by decide)

/-- The parsed transport response seen by the lib client's `makeRequest`
(`src/src/lib/whatsapp.ts`, lines 88-167): the fetch `response.ok` flag and
the `statusCode`, `stateInstance` and `error` fields of the parsed JSON body. -/
structure FetchResponse where
  ok : Bool
  statusCode : Option Nat
  stateInstance : Option String
  errorField : Option String
deriving DecidableEq

/-- A thrown JavaScript error as observed by the catch blocks of the lib
client: its message, and the HTTP status of an attached axios-style
`error.response`, when present.  Errors constructed with `new Error(...)` —
the only kind the lib `makeRequest` throws — carry no response status. -/
structure JsError where
  message : String
  responseStatus : Option Nat
deriving DecidableEq

/-- The response classification of `WhatsAppAPI.makeRequest` from
`src/src/lib/whatsapp.ts` (lines 131-152): body `statusCode` 401 means not
authorized, 466 means the Green API request rate limit was exceeded, 400 is a
bad request; any other non-ok response or body `error` field becomes a generic
error.  Every thrown error is a plain `new Error(message)` without an attached
response. -/
def makeRequest (r : FetchResponse) : Except JsError FetchResponse :=
  if r.statusCode = some 401 then
    .error ⟨"WhatsApp instance not authorized", none⟩
  else if r.statusCode = some 466 then
    .error ⟨"Request rate limit exceeded", none⟩
  else if r.statusCode = some 400 then
    .error ⟨"Bad request", none⟩
  else if r.ok = false ∨ r.errorField.isSome then
    .error ⟨r.errorField.getD "Request failed", none⟩
  else
    .ok r

/-- The catch block of `WhatsAppAPI.checkInstanceState`
(`src/src/lib/whatsapp.ts`, lines 77-85): a caught error whose
`error.response?.status` is 429 yields `true` (assume authorized); every other
caught error yields `false`. -/
def stateCheckCatch (e : JsError) : Bool :=
  if e.responseStatus = some 429 then true else false

/-- `WhatsAppAPI.checkInstanceState` from `src/src/lib/whatsapp.ts` (lines
64-86), composed with the lib `makeRequest`: on a successful response the
result is whether `stateInstance` equals "authorized" (a missing or non-string
field yields `false`); on a thrown error the catch block decides. -/
def checkInstanceState (r : FetchResponse) : Bool :=
  match makeRequest r with
  | .ok resp =>
    match resp.stateInstance with
    | some s => s = "authorized"
    | none => false
  | .error e => stateCheckCatch e

/-- A throttling response: the Green API answers with body statusCode 466. -/
def throttled466 : FetchResponse := ⟨true, some 466, none, none⟩

/-- Counterexample to claim C7: a state check whose response is classified as
throttling by the lib `makeRequest` (body statusCode 466, message "Request
rate limit exceeded") returns `false` — Unauthorized — not the claimed
fail-open `true`, because the thrown plain Error carries no
`response.status`, so the 429 fail-open branch of the catch never fires. -/
theorem checkInstanceState_throttled_counterexample :
    makeRequest throttled466 = .error ⟨"Request rate limit exceeded", none⟩ ∧
    checkInstanceState throttled466 = false := by
  constructor <;> rfl

/-- Amended claim C7: the fail-open branch of the state check fires exactly
for caught errors carrying an attached HTTP response status 429 (as the
axios-based queued client variant produces); the lib `makeRequest` attaches no
response status to any error it throws, so every throttling response it
classifies (body statusCode 466) makes `checkInstanceState` return `false`. -/
theorem checkInstanceState_fail_open (r : FetchResponse) (e : JsError) :
    (makeRequest r = .error e → e.responseStatus = none) ∧
    (r.statusCode = some 466 → checkInstanceState r = false) ∧
    (stateCheckCatch e = true ↔ e.responseStatus = some 429) := by
  refine ⟨?_, ?_, ?_⟩
  · intro h
    unfold makeRequest at h
    split at h
    · injection h with h
      subst h
      rfl
    · split at h
      · injection h with h
        subst h
        rfl
      · split at h
        · injection h with h
          subst h
          rfl
        · split at h
          · injection h with h
            subst h
            rfl
          · exact absurd h (by simp)
  · intro h466
    unfold checkInstanceState makeRequest
    rw [if_neg (by simp [h466]), if_pos h466]
    rfl
  · unfold stateCheckCatch
    split
    · simp_all
    · simp_all

/-- Witness for the amended C7 at the concrete throttling response and at a
concrete axios-style 429 error. -/
theorem checkInstanceState_fail_open_witness :
    (makeRequest throttled466 = .error ⟨"Request rate limit exceeded", none⟩ →
      (JsError.mk "Request rate limit exceeded" none).responseStatus = none) ∧
    checkInstanceState throttled466 = false ∧
    stateCheckCatch ⟨"axios 429", some 429⟩ = true :=
  ⟨(checkInstanceState_fail_open throttled466 ⟨"Request rate limit exceeded", none⟩).1,
   (checkInstanceState_fail_open throttled466 ⟨"Request rate limit exceeded", none⟩).2.1 rfl,
   (checkInstanceState_fail_open throttled466 ⟨"axios 429", some 429⟩).2.2.mpr rfl⟩

/-- The `days` array of `SummaryScheduler.getDaysUntilTarget`
(`src/unnamed/part_013`, line 40). -/
def daysOfWeek : List String :=
  ["SUNDAY", "MONDAY", "TUESDAY", "WEDNESDAY", "THURSDAY", "FRIDAY", "SATURDAY"]

/-- `SummaryScheduler.getDaysUntilTarget` (`src/unnamed/part_013`, lines
39-53): looks up both day names (throwing, modelled as `none`, when either is
not a valid day), takes the index difference, and adds 7 whenever the
difference is non-positive — so a target equal to the current day yields 7. -/
def getDaysUntilTarget (current target : String) : Option Int :=
  match daysOfWeek.indexOf? current, daysOfWeek.indexOf? target with
  | some currentIndex, some targetIndex =>
    let daysUntil : Int := (targetIndex : Int) - (currentIndex : Int)
    some (if daysUntil ≤ 0 then daysUntil + 7 else daysUntil)
  | _, _ => none

/-- An evaluation instant: calendar day as a day count (day 0 is a Sunday,
matching `format(now, 'EEEE')`) and the time of day in minutes. -/
structure Moment where
  day : Nat
  minutes : Nat
deriving DecidableEq

/-- The weekday name of a day count, day 0 being a Sunday. -/
def dayName (d : Nat) : String := daysOfWeek.getD (d % 7) "SUNDAY"

/-- Cadence of a schedule (`SummaryFrequency` in the config module). -/
inductive Frequency where
  | daily
  | weekly
deriving DecidableEq

/-- A `ScheduleConfig`: enabled flag, cadence, time of day in minutes, and the
optional weekday name used by weekly schedules (`schedule.day || 'SUNDAY'`). -/
structure ScheduleConfig where
  enabled : Bool
  frequency : Frequency
  time : Nat
  day : Option String
deriving DecidableEq

/-- `SummaryScheduler.getNextRunTime` (`src/unnamed/part_013`, lines 15-37).
Returns `none` for a missing or disabled schedule.  Daily: today at the
configured time unless `now` is strictly past it, else tomorrow.  Weekly: the
date `getDaysUntilTarget` days ahead of `now`, at the configured time. -/
def getNextRunTime (schedule : Option ScheduleConfig) (now : Moment) : Option Moment :=
  match schedule with
  | none => none
  | some s =>
    if s.enabled = false then
      none
    else
      match s.frequency with
      | .daily =>
        if s.time < now.minutes then some ⟨now.day + 1, s.time⟩
        else some ⟨now.day, s.time⟩
      | .weekly =>
        match getDaysUntilTarget (dayName now.day) (s.day.getD "SUNDAY") with
        | some d => some ⟨now.day + d.toNat, s.time⟩
        | none => none

/-- A weekly schedule targeting Sunday at minute 1200 (20:00). -/
def sundaySchedule : ScheduleConfig := ⟨true, .weekly, 1200, some "SUNDAY"⟩

/-- Counterexample to claim C9: evaluated on a Sunday (day 0) at minute 600 —
on the target weekday, before the configured time 1200 — the computed next
run is seven days later (day 7 at 1200), not the same day at the configured
time as the claim requires: `getDaysUntilTarget` adds 7 whenever the day
difference is zero, regardless of the time of day. -/
theorem getNextRunTime_same_day_counterexample :
    getNextRunTime (some sundaySchedule) ⟨0, 600⟩ = some ⟨7, 1200⟩ ∧
    getNextRunTime (some sundaySchedule) ⟨0, 600⟩ ≠ some ⟨0, 1200⟩ := by
  decide

lemma daysOfWeek_indexOf_dayName (d : Nat) :
    daysOfWeek.indexOf? (dayName d) = some (d % 7) := by
  have h7 : d % 7 = 0 ∨ d % 7 = 1 ∨ d % 7 = 2 ∨ d % 7 = 3 ∨ d % 7 = 4 ∨
      d % 7 = 5 ∨ d % 7 = 6 := by omega
  rcases h7 with h | h | h | h | h | h | h <;> simp only [dayName, h] <;> decide

/-- Amended claim C9: for every enabled weekly schedule with a valid weekday
name and every evaluation instant `from`, the computed next run is at the
configured time, on the configured weekday, strictly later in calendar days
than `from` and at most seven days ahead — but when `from` falls on the
target weekday the result is always seven days later, even when the
configured time is still ahead on that same day: the same-day slot is
skipped. -/
theorem getNextRunTime_weekly (s : ScheduleConfig) (now : Moment) (t : String)
    (ti : Nat) (he : s.enabled = true) (hf : s.frequency = .weekly)
    (hd : s.day = some t) (hti : daysOfWeek.indexOf? t = some ti) (hti7 : ti < 7) :
    ∃ m, getNextRunTime (some s) now = some m ∧
      m.minutes = s.time ∧
      now.day < m.day ∧ m.day ≤ now.day + 7 ∧
      m.day % 7 = ti ∧
      (now.day % 7 = ti → m.day = now.day + 7) := by
  obtain ⟨en, fr, tm, dy⟩ := s
  dsimp only at he hf hd ⊢
  subst he hf hd
  simp only [getNextRunTime, getDaysUntilTarget, Option.getD_some,
    daysOfWeek_indexOf_dayName, hti, Bool.true_eq_false, if_false]
  refine ⟨_, rfl, rfl, ?_⟩
  dsimp only
  have hc : now.day % 7 < 7 := Nat.mod_lt _ (by omega)
  have hmod : now.day % 7 ≤ now.day := Nat.mod_le _ _
  have h7 : now.day % 7 + 7 * (now.day / 7) = now.day := by
    rw [Nat.mod_add_div]
  split
  · next hle =>
    refine ⟨by omega, by omega, by omega, by omega⟩
  · next hgt =>
    refine ⟨by omega, by omega, by omega, by omega⟩

/-- Witness for the amended C9: evaluated on a Wednesday (day 3) at minute
100, the Sunday schedule's next run is day 7 at minute 1200. -/
theorem getNextRunTime_weekly_witness :
    ∃ m, getNextRunTime (some sundaySchedule) ⟨3, 100⟩ = some m ∧
      m.minutes = sundaySchedule.time ∧
      3 < m.day ∧ m.day ≤ 3 + 7 ∧ m.day % 7 = 0 ∧ (3 % 7 = 0 → m.day = 3 + 7) :=
  getNextRunTime_weekly sundaySchedule ⟨3, 100⟩ "SUNDAY" 0 rfl rfl rfl
    (by decide) (by decide)
